import Mathlib

/-!
Shallow embedding of the smart-waste dispatch simulator (src/app.py and
src/app_1.py) together with proofs about its dispatch, prediction, logging
and trip-completion operations.

Modelling conventions, applied uniformly:
* Numeric fields (fill levels, coordinates, distances, speeds) are rationals.
* Draws from `random` are explicit parameters: a growth function for the
  predictor, an index for `random.choice`, a rational for `random.uniform`
  and `random.randint`.
* Wall-clock timestamps (`now_str()`, the `"time"` keys of records) decide no
  claim and are omitted from records; alerts are modelled by their message
  strings, `trips_over_time` entries by their `"completed"` values.
* `haversine` (app.py:11, app_1.py:22) is a transcendental real-valued
  function; every dispatch claim holds for an arbitrary distance function, so
  distance is passed as a parameter `distFn` wherever the source calls
  `haversine`.
* Python `round(x, 2)` / `round(x, 1)` are modelled by `round2` / `round1`
  below.  Python rounds half to even while `round` on ℚ rounds half up; the
  two agree except on exact midpoints and every proof below only uses the
  bound |round q - q| ≤ 1/2, valid for both.
* Operations whose behaviour no claim mentions (reset, start/stop toggles,
  HTML file serving, the `_ls` debug endpoint) are not modelled.
-/

/-- Status of a bin (`"OK"` / `"FULL"` strings in the source). -/
inductive BinStatus where
  | OK
  | FULL
  deriving DecidableEq

/-- Status of a vehicle (`"IDLE"` / `"BUSY"` strings in the source). -/
inductive VStatus where
  | IDLE
  | BUSY
  deriving DecidableEq

/-- Bin record, as in the `bins` dictionaries of both variants
(app.py:29-35, app_1.py:43-49). -/
structure Bin where
  id : Nat
  lat : ℚ
  lng : ℚ
  fill : ℚ
  status : BinStatus
  deriving DecidableEq

/-- Vehicle record of the app_1.py variant (app_1.py:51-66): `moving`,
`targetPath` and `speed` model the `_moving`, `_target_path` and
`_speed_m_s` keys. -/
structure Vehicle where
  id : Nat
  lat : ℚ
  lng : ℚ
  status : VStatus
  target_bin : Option Nat
  completed : Nat
  total_distance : ℚ
  moving : Bool
  targetPath : Option ((ℚ × ℚ) × (ℚ × ℚ))
  speed : ℚ
  deriving DecidableEq

/-- Vehicle record of the app.py variant (app.py:37-48), which has no
movement-state keys. -/
structure AppVehicle where
  id : Nat
  lat : ℚ
  lng : ℚ
  status : VStatus
  target_bin : Option Nat
  completed : Nat
  total_distance : ℚ
  deriving DecidableEq

/-- Assignment record appended to `assignments` (timestamp omitted). -/
structure AssignRec where
  vehicle_id : Nat
  bin_id : Nat
  distance : ℚ
  deriving DecidableEq

/-- Comparison record appended to `comparison_stats` (timestamp omitted).
The records built by `assign_nearest_full` carry no `route_time` key and the
ones built by `record_route_assignment` may carry missing keys, hence the
`Option` fields. -/
structure CompRec where
  bin : Option Nat
  assigned_vehicle : Option Nat
  assigned_distance : Option ℚ
  route_time : Option ℚ
  others : List (Nat × ℚ)
  deriving DecidableEq

/-- Whole mutable module state of app_1.py: `bins`, `vehicles`,
`assignments`, `comparison_stats`, `bin_alerts` and `system_stats`
(app_1.py:43-78).  `completed`, `distance`, `avg_eta` and `tripsOverTime`
are the fields of `system_stats`. -/
structure SysState where
  bins : List Bin
  vehicles : List Vehicle
  assignments : List AssignRec
  comparisons : List CompRec
  alerts : List String
  completed : Nat
  distance : ℚ
  avg_eta : ℚ
  tripsOverTime : List Nat
  deriving DecidableEq

/-- Whole mutable module state of app.py (app.py:29-52); its
`system_stats` has an `ai_efficiency` field written by
`assign_nearest_full` and no `trips_over_time`. -/
structure AppState where
  bins : List Bin
  vehicles : List AppVehicle
  assignments : List AssignRec
  comparisons : List CompRec
  alerts : List String
  completed : Nat
  ai_efficiency : ℚ
  deriving DecidableEq

/-- Result of the `complete_trip` endpoint: `ok` for the `{"ok": True}`
response, `notFound` for the 404 `JSONResponse` of app_1.py:223. -/
inductive TripResult where
  | ok
  | notFound
  deriving DecidableEq

/-- Python `round(q, 2)`. -/
def round2 (q : ℚ) : ℚ := ((round (100 * q) : ℤ) : ℚ) / 100

/-- Python `round(q, 1)`. -/
def round1 (q : ℚ) : ℚ := ((round (10 * q) : ℤ) : ℚ) / 10

/-- Embeds `predict_fill` (app.py:21-24 and app_1.py:32-38):
`round(min(100, fill + growth), 2)` where `growth` is the value drawn from
`random.uniform`.  In app.py the draw is from [1, 4]; in app_1.py it is from
[base, base + 2.5] with `base = 0.6` during hours 6-20 and `0.2` otherwise,
so in both variants `growth ≥ 1/5`. -/
def predict_fill (fill g : ℚ) : ℚ := round2 (min 100 (fill + g))

/-- Embeds `compute_eta_seconds` (app_1.py:89-92). -/
def compute_eta_seconds (distance_meters speed_m_s : ℚ) : ℚ :=
  if speed_m_s ≤ 0 then 0 else distance_meters / speed_m_s

/-- Alert message of app_1.py:240-243 and app.py:162-165. -/
def completeMsg (vid bid : Nat) : String :=
  "✅ Vehicle " ++ toString vid ++ " completed trip for Bin " ++ toString bid

/-- Alert message of app_1.py:139-142. -/
def predictMsg1 (bid : Nat) : String :=
  "🔮 Predicted FULL Bin " ++ toString bid ++ " (AI Forecast)"

/-- Alert message of app.py:96-99. -/
def appPredictMsg (bid : Nat) : String :=
  "🔮 AI predicted Bin " ++ toString bid ++ " reaching FULL capacity"

/-- Alert message of the auto loops (app_1.py:312-315, app.py:189-192). -/
def autoMsg (bid : Nat) : String :=
  "⚠️ Bin " ++ toString bid ++ " reached FULL capacity (AI detected)"

/-- Alert message of app_1.py:155-158. -/
def fillRandomMsg (bid : Nat) : String :=
  "⚠️ Bin " ++ toString bid ++ " is FULL and sent an alert"

/-- Alert message of app_1.py:208-211. -/
def assignMsg1 (vid bid : Nat) : String :=
  "🚗 Vehicle " ++ toString vid ++ " assigned to Bin " ++ toString bid ++
    " dynamically (AI Route Optimization)"

/-- Alert message of app.py:141-144. -/
def appAssignMsg (vid bid : Nat) : String :=
  "🤖 AI assigned Vehicle " ++ toString vid ++ " to Bin " ++ toString bid ++
    " (Optimized Route)"

/-- First element of `x :: l` minimising the strict preference `lt`:
the element Python's stable in-place `sort` puts first, followed by `[0]`
(app.py:118-119, app_1.py:180-182), and likewise the first element of the
list sorted by a strict key. -/
def pickBest {α : Type} (lt : α → α → Bool) : α → List α → α
  | x, [] => x
  | x, y :: ys => pickBest lt (if lt y x then y else x) ys

/-- Replaces the first element satisfying `p`, the way mutating the object
returned by Python's `next(x for x in xs if p)` updates exactly the first
matching list entry. -/
def updateFirst {α : Type} (p : α → Bool) (f : α → α) : List α → List α
  | [] => []
  | x :: xs => if p x then f x :: xs else x :: updateFirst p f xs

/-- Strict preference on bins corresponding to Python's ascending sort by
key `(-fill, id)` (app_1.py:172): `y` is preferred to `b` when it has
strictly higher fill, or equal fill and strictly lower id. -/
def binBetter (y b : Bin) : Bool :=
  decide (b.fill < y.fill) || (decide (y.fill = b.fill) && decide (y.id < b.id))

/-- Dispatch score of an idle vehicle for bin `b`
(app_1.py:178 with penalty 50, app.py:116 with penalty 75):
`distance + completed * penalty`. -/
def vehicle_score (distFn : ℚ → ℚ → ℚ → ℚ → ℚ) (penalty : ℚ) (b : Bin)
    (v : Vehicle) : ℚ :=
  distFn v.lat v.lng b.lat b.lng + (v.completed : ℚ) * penalty

/-- Strict preference on vehicles: strictly lower score. -/
def vehicleBetter (distFn : ℚ → ℚ → ℚ → ℚ → ℚ) (penalty : ℚ) (b : Bin)
    (y best : Vehicle) : Bool :=
  decide (vehicle_score distFn penalty b y < vehicle_score distFn penalty b best)

/-- Dispatch score for the app.py vehicle record (app.py:116). -/
def app_vehicle_score (distFn : ℚ → ℚ → ℚ → ℚ → ℚ) (penalty : ℚ) (b : Bin)
    (v : AppVehicle) : ℚ :=
  distFn v.lat v.lng b.lat b.lng + (v.completed : ℚ) * penalty

/-- Strict preference on app.py vehicles: strictly lower score. -/
def appVehicleBetter (distFn : ℚ → ℚ → ℚ → ℚ → ℚ) (penalty : ℚ) (b : Bin)
    (y best : AppVehicle) : Bool :=
  decide (app_vehicle_score distFn penalty b y < app_vehicle_score distFn penalty b best)

/-- Candidate bins of the dispatch operation (app_1.py:166, app.py:107):
status FULL and not already targeted by any vehicle. -/
def candidate_bins (binsL : List Bin) (vehiclesL : List Vehicle) : List Bin :=
  binsL.filter (fun b =>
    b.status == BinStatus.FULL &&
      !(vehiclesL.any (fun v => v.target_bin == some b.id)))

/-- Idle vehicles (app_1.py:167, app.py:108). -/
def idle_vehicles (vehiclesL : List Vehicle) : List Vehicle :=
  vehiclesL.filter (fun v => v.status == VStatus.IDLE)

/-- Candidate bins for the app.py variant (app.py:107). -/
def app_candidate_bins (binsL : List Bin) (vehiclesL : List AppVehicle) : List Bin :=
  binsL.filter (fun b =>
    b.status == BinStatus.FULL &&
      !(vehiclesL.any (fun v => v.target_bin == some b.id)))

/-- Idle vehicles for the app.py variant (app.py:108). -/
def app_idle_vehicles (vehiclesL : List AppVehicle) : List AppVehicle :=
  vehiclesL.filter (fun v => v.status == VStatus.IDLE)

/-- Per-bin body of the app_1.py `predict_fills` loop (app_1.py:133-143):
new fill plus the alert appended when the bin crosses into ≥ 100 from a
status other than FULL. -/
def predictStep (growth : Bin → ℚ) (b : Bin) : Bin × Option String :=
  let nf := predict_fill b.fill (growth b)
  if 100 ≤ nf ∧ ¬b.status = BinStatus.FULL then
    ({ b with fill := nf, status := BinStatus.FULL }, some (predictMsg1 b.id))
  else
    ({ b with fill := nf }, none)

/-- Embeds the `predict_fills` endpoint of app_1.py (app_1.py:130-144).
The Python loop updates each bin and appends the qualifying alerts in bin
order, which is exactly `map` of the per-bin update plus `filterMap` of the
per-bin alert.  `growth` gives the `random.uniform` draw for each bin. -/
def predict_fills_1 (growth : Bin → ℚ) (st : SysState) : SysState :=
  { st with
    bins := st.bins.map (fun b => (predictStep growth b).1),
    alerts := st.alerts ++ st.bins.filterMap (fun b => (predictStep growth b).2) }

/-- Per-bin body of the app.py `predict_fills` loop (app.py:87-99): the
alert is appended whenever the new fill is ≥ 100, with no check of the
previous status. -/
def appPredictStep (growth : Bin → ℚ) (b : Bin) : Bin × Option String :=
  let nf := predict_fill b.fill (growth b)
  if 100 ≤ nf then
    ({ b with fill := nf, status := BinStatus.FULL }, some (appPredictMsg b.id))
  else
    ({ b with fill := nf }, none)

/-- Embeds the `predict_fills` endpoint of app.py (app.py:84-100).  The
`ai_changes` list it returns is response-only data and is not modelled. -/
def predict_fills_app (growth : Bin → ℚ) (st : AppState) : AppState :=
  { st with
    bins := st.bins.map (fun b => (appPredictStep growth b).1),
    alerts := st.alerts ++ st.bins.filterMap (fun b => (appPredictStep growth b).2) }

/-- Per-bin body of the prediction phase of `auto_loop` in app_1.py
(app_1.py:308-315): like app.py's `predict_fills`, the alert is appended
whenever the new fill is ≥ 100, with no check of the previous status. -/
def autoPredictStep (growth : Bin → ℚ) (b : Bin) : Bin × Option String :=
  let nf := predict_fill b.fill (growth b)
  if 100 ≤ nf then
    ({ b with fill := nf, status := BinStatus.FULL }, some (autoMsg b.id))
  else
    ({ b with fill := nf }, none)

/-- Prediction phase of one `auto_loop` iteration of app_1.py
(app_1.py:306-315); the iteration then calls `assign_nearest_full`. -/
def auto_predict_1 (growth : Bin → ℚ) (st : SysState) : SysState :=
  { st with
    bins := st.bins.map (fun b => (autoPredictStep growth b).1),
    alerts := st.alerts ++ st.bins.filterMap (fun b => (autoPredictStep growth b).2) }

/-- Embeds `record_comparison` (app_1.py:94-98): append, then evict the
front entry when the length exceeds 500. -/
def record_comparison (stats : List CompRec) (rec1 : CompRec) : List CompRec :=
  let stats1 := stats ++ [rec1]
  if stats1.length > 500 then stats1.drop 1 else stats1

/-- Embeds the `fill_random` endpoint of app_1.py (app_1.py:149-159):
`k` is the index drawn by `random.choice(bins)` and `m` the draw of
`random.randint(20, 40)`.  An out-of-range `k` (impossible for the uniform
choice on the non-empty bin list) leaves the state unchanged. -/
def fill_random_1 (k : Nat) (m : ℚ) (st : SysState) : SysState :=
  match st.bins.get? k with
  | none => st
  | some b =>
    let nf := min 100 (b.fill + m)
    if 100 ≤ nf then
      { st with
        bins := st.bins.set k { b with fill := 100, status := BinStatus.FULL },
        alerts := st.alerts ++ [fillRandomMsg b.id] }
    else
      { st with bins := st.bins.set k { b with fill := nf } }

/-- Embeds `complete_trip` of app_1.py (app_1.py:218-244): look up the
first vehicle and bin with the given ids; on failure answer the 404
`notFound` result and leave the state untouched; on success finalise the
vehicle and bin, bump the counters, append the bounded `trips_over_time`
point and the alert. -/
def complete_trip_1 (st : SysState) (vid bid : Nat) : SysState × TripResult :=
  match st.vehicles.find? (fun x => x.id == vid), st.bins.find? (fun x => x.id == bid) with
  | some _, some _ =>
    let t := st.tripsOverTime ++ [st.completed + 1]
    ({ st with
        vehicles := updateFirst (fun x => x.id == vid)
          (fun v => { v with status := VStatus.IDLE, target_bin := none,
                             moving := false, targetPath := none,
                             completed := v.completed + 1 }) st.vehicles,
        bins := updateFirst (fun x => x.id == bid)
          (fun b => { b with fill := 0, status := BinStatus.OK }) st.bins,
        completed := st.completed + 1,
        tripsOverTime := if t.length > 200 then t.drop 1 else t,
        alerts := st.alerts ++ [completeMsg vid bid] }, TripResult.ok)
  | _, _ => (st, TripResult.notFound)

/-- Embeds `complete_trip` of app.py (app.py:152-166): the loops update
every vehicle/bin whose id matches, and the completed counter, alert and
`{"ok": True}` response are produced whether or not any id matched. -/
def complete_trip_app (st : AppState) (vid bid : Nat) : AppState × TripResult :=
  ({ st with
      vehicles := st.vehicles.map (fun v =>
        if v.id == vid then
          { v with status := VStatus.IDLE, target_bin := none,
                   completed := v.completed + 1 }
        else v),
      bins := st.bins.map (fun b =>
        if b.id == bid then { b with fill := 0, status := BinStatus.OK } else b),
      completed := st.completed + 1,
      alerts := st.alerts ++ [completeMsg vid bid] }, TripResult.ok)

/-- Embeds the inline trip-completion block of `movement_loop` in app_1.py
(app_1.py:367-384), run when a vehicle arrives at its target: it re-implements
the body of `complete_trip` but updates every matching list entry, never trims
`trips_over_time`, and appends the alert with an extra " (auto)" suffix. -/
def movement_finalize (st : SysState) (vid bid : Nat) : SysState :=
  { st with
    vehicles := st.vehicles.map (fun veh =>
      if veh.id == vid then
        { veh with status := VStatus.IDLE, target_bin := none,
                   moving := false, targetPath := none,
                   completed := veh.completed + 1 }
      else veh),
    bins := st.bins.map (fun b =>
      if b.id == bid then { b with fill := 0, status := BinStatus.OK } else b),
    completed := st.completed + 1,
    tripsOverTime := st.tripsOverTime ++ [st.completed + 1],
    alerts := st.alerts ++ [completeMsg vid bid ++ " (auto)"] }

/-- Embeds `assign_nearest_full` of app_1.py (app_1.py:164-213): pick the
candidate bin with highest fill (ties to the lowest id, via the sort by
`(-fill, id)`), pick the idle vehicle with the lowest
`distance + completed * 50` score (ties to the first in list order, by sort
stability), mark it busy with a straight-line path, and append the
assignment record, the bounded comparison record and the alert. -/
def assign_nearest_full_1 (distFn : ℚ → ℚ → ℚ → ℚ → ℚ) (st : SysState) :
    SysState × Option AssignRec :=
  match candidate_bins st.bins st.vehicles, idle_vehicles st.vehicles with
  | fb :: fbs, v0 :: vs =>
    let b := pickBest binBetter fb fbs
    let nv := pickBest (vehicleBetter distFn 50 b) v0 vs
    let d := distFn nv.lat nv.lng b.lat b.lng
    let rec1 : AssignRec := { vehicle_id := nv.id, bin_id := b.id, distance := round1 d }
    let comp : CompRec :=
      { bin := some b.id, assigned_vehicle := some nv.id,
        assigned_distance := some (round1 d), route_time := none,
        others := ((v0 :: vs).filter (fun v => !(v.id == nv.id))).map
          (fun v => (v.id, round1 (distFn v.lat v.lng b.lat b.lng))) }
    ({ st with
        vehicles := updateFirst (fun v => v.id == nv.id)
          (fun v => { v with status := VStatus.BUSY, target_bin := some b.id,
                             moving := true,
                             targetPath := some ((v.lat, v.lng), (b.lat, b.lng)) })
          st.vehicles,
        assignments := st.assignments ++ [rec1],
        comparisons := record_comparison st.comparisons comp,
        alerts := st.alerts ++ [assignMsg1 nv.id b.id] }, some rec1)
  | _, _ => (st, none)

/-- Embeds `assign_nearest_full` of app.py (app.py:105-147): the bin is
drawn by `random.choice(full_bins)`, modelled by the index `k`; the vehicle
is picked by the lowest `distance + completed * 75` score; `e` is the
`random.uniform(15, 30)` draw written to `ai_efficiency`.  The comparison
record is appended directly, with no bound. -/
def assign_nearest_full_app (distFn : ℚ → ℚ → ℚ → ℚ → ℚ) (k : Nat) (e : ℚ)
    (st : AppState) : AppState × Option AssignRec :=
  match app_candidate_bins st.bins st.vehicles, app_idle_vehicles st.vehicles with
  | fb :: fbs, v0 :: vs =>
    let b := (fb :: fbs).getD k fb
    let nv := pickBest (appVehicleBetter distFn 75 b) v0 vs
    let d := distFn nv.lat nv.lng b.lat b.lng
    let rec1 : AssignRec := { vehicle_id := nv.id, bin_id := b.id, distance := round1 d }
    let comp : CompRec :=
      { bin := some b.id, assigned_vehicle := some nv.id,
        assigned_distance := some (round1 d), route_time := none,
        others := ((v0 :: vs).filter (fun v => !(v.id == nv.id))).map
          (fun v => (v.id, round1 (distFn v.lat v.lng b.lat b.lng))) }
    ({ st with
        vehicles := updateFirst (fun v => v.id == nv.id)
          (fun v => { v with status := VStatus.BUSY, target_bin := some b.id })
          st.vehicles,
        assignments := st.assignments ++ [rec1],
        comparisons := st.comparisons ++ [comp],
        alerts := st.alerts ++ [appAssignMsg nv.id b.id],
        ai_efficiency := e }, some rec1)
  | _, _ => (st, none)

/-- Parsed JSON body accepted by `record_route_assignment`
(app_1.py:397-411). -/
structure RouteData where
  bin_id : Option Nat
  vehicle_id : Option Nat
  distance : Option ℚ
  time : Option ℚ
  others : List (Nat × ℚ)
  deriving DecidableEq

/-- Embeds `record_route_assignment` (app_1.py:397-421): the comparison
record is appended directly to `comparison_stats` with no bound; the
distance is added to the stats when the rounded value is truthy (Python
truthiness: present and non-zero), and `avg_eta` is recomputed when any
trip has completed. -/
def record_route_assignment (data : RouteData) (st : SysState) : SysState :=
  let rec1 : CompRec :=
    { bin := data.bin_id, assigned_vehicle := data.vehicle_id,
      assigned_distance := data.distance.map round1,
      route_time := data.time.map round1, others := data.others }
  let st1 := { st with comparisons := st.comparisons ++ [rec1] }
  let st2 :=
    match rec1.assigned_distance with
    | some d => if d = 0 then st1 else { st1 with distance := round2 (st1.distance + d) }
    | none => st1
  if st2.completed > 0 then
    { st2 with avg_eta := round2 (st2.distance / (st2.completed : ℚ)) }
  else st2

/-- Per-bin invariant of the spec: status is FULL iff fill ≥ 100. -/
def binOk (b : Bin) : Prop := b.status = BinStatus.FULL ↔ 100 ≤ b.fill

/-- The invariant `binOk` for every bin of a list. -/
def BinInv (l : List Bin) : Prop := ∀ b ∈ l, binOk b

/-- Initial bin list, common to both variants (app.py:29-35,
app_1.py:43-49). -/
def bins_init : List Bin :=
  [ { id := 1, lat := 220513/10000, lng := 880721/10000, fill := 40, status := BinStatus.OK },
    { id := 2, lat := 220506/10000, lng := 880712/10000, fill := 30, status := BinStatus.OK },
    { id := 3, lat := 220498/10000, lng := 880728/10000, fill := 50, status := BinStatus.OK },
    { id := 4, lat := 220492/10000, lng := 880705/10000, fill := 20, status := BinStatus.OK },
    { id := 5, lat := 220509/10000, lng := 880698/10000, fill := 35, status := BinStatus.OK } ]

/-- Concrete app.py module state used to evaluate `complete_trip` on unknown
ids: the initial bins, three idle vehicles at the campus centre (the random
start offsets of app.py:40-41 set to 0 — they play no part in trip
completion), empty logs and zeroed stats. -/
def app_test_state : AppState :=
  { bins := bins_init,
    vehicles :=
      [ { id := 1, lat := 220509/10000, lng := 880725/10000, status := VStatus.IDLE,
          target_bin := none, completed := 0, total_distance := 0 },
        { id := 2, lat := 220509/10000, lng := 880725/10000, status := VStatus.IDLE,
          target_bin := none, completed := 0, total_distance := 0 },
        { id := 3, lat := 220509/10000, lng := 880725/10000, status := VStatus.IDLE,
          target_bin := none, completed := 0, total_distance := 0 } ],
    assignments := [], comparisons := [], alerts := [], completed := 0,
    ai_efficiency := 0 }

/-- Concrete app_1.py module state of the same shape (offsets of
app_1.py:54-55 set to 0, default speed 5.6 = 28/5). -/
def sys_test_state : SysState :=
  { bins := bins_init,
    vehicles :=
      [ { id := 1, lat := 220509/10000, lng := 880725/10000, status := VStatus.IDLE,
          target_bin := none, completed := 0, total_distance := 0,
          moving := false, targetPath := none, speed := 28/5 },
        { id := 2, lat := 220509/10000, lng := 880725/10000, status := VStatus.IDLE,
          target_bin := none, completed := 0, total_distance := 0,
          moving := false, targetPath := none, speed := 28/5 },
        { id := 3, lat := 220509/10000, lng := 880725/10000, status := VStatus.IDLE,
          target_bin := none, completed := 0, total_distance := 0,
          moving := false, targetPath := none, speed := 28/5 } ],
    assignments := [], comparisons := [], alerts := [], completed := 0,
    distance := 0, avg_eta := 0, tripsOverTime := [] }

/-- Rounding to two decimals moves a rational by at most 1/200 and fixes
integers; these three facts carry every rounding argument below. -/
theorem round2_intCast (z : ℤ) : round2 (z : ℚ) = z := by
  have h : (100 : ℚ) * (z : ℚ) = ((100 * z : ℤ) : ℚ) := by push_cast; ring
  rw [round2, h, round_intCast]
  push_cast
  ring

theorem round2_sub_le (q : ℚ) : q - 1/200 ≤ round2 q ∧ round2 q ≤ q + 1/200 := by
  have h := abs_sub_round (100 * q)
  rw [abs_le] at h
  rw [round2]
  constructor
  · rw [le_div_iff₀ (by norm_num : (0:ℚ) < 100)]
    linarith [h.2]
  · rw [div_le_iff₀ (by norm_num : (0:ℚ) < 100)]
    linarith [h.1]

theorem round2_mono {p q : ℚ} (h : p ≤ q) : round2 p ≤ round2 q := by
  rw [round2, round2]
  have : round (100 * p) ≤ round (100 * q) := by
    rw [round_eq, round_eq]
    exact Int.floor_le_floor (by linarith)
  have hc : ((round (100 * p) : ℤ) : ℚ) ≤ ((round (100 * q) : ℤ) : ℚ) := by
    exact_mod_cast this
  linarith

theorem round2_hundred : round2 100 = 100 := by
  have h := round2_intCast 100
  push_cast at h
  exact h

example : predict_fill 40 2 = 42 := by
  have h : min (100:ℚ) (40 + 2) = ((42:ℤ):ℚ) := by norm_num
  rw [predict_fill, h, round2_intCast]
  norm_num

example : predict_fill 99 (5/2) = 100 := by
  have h : min (100:ℚ) (99 + 5/2) = 100 := by norm_num
  rw [predict_fill, h, round2_hundred]

example : (complete_trip_1 sys_test_state 99 99).2 = TripResult.notFound := by decide

/-- The element `pickBest` returns is the accumulator or a list element. -/
theorem pickBest_mem {α : Type} (lt : α → α → Bool) (x : α) (l : List α) :
    pickBest lt x l = x ∨ pickBest lt x l ∈ l := by
  induction l generalizing x with
  | nil => exact Or.inl rfl
  | cons y ys ih =>
    rw [pickBest]
    by_cases h : lt y x = true
    · rw [if_pos h]
      rcases ih y with h1 | h1
      · exact Or.inr (by rw [h1]; exact List.mem_cons_self y ys)
      · exact Or.inr (List.mem_cons_of_mem y h1)
    · rw [if_neg h]
      rcases ih x with h1 | h1
      · exact Or.inl h1
      · exact Or.inr (List.mem_cons_of_mem y h1)

/-- `pickBest` keeps the accumulator unless it finds something strictly
preferred, so the result never changed on a mere tie: this is Python's sort
stability. -/
theorem pickBest_imp {α : Type} (lt : α → α → Bool)
    (htrans : ∀ a b c, lt a b = true → lt b c = true → lt a c = true)
    (x : α) (l : List α) :
    pickBest lt x l = x ∨ lt (pickBest lt x l) x = true := by
  induction l generalizing x with
  | nil => exact Or.inl rfl
  | cons y ys ih =>
    rw [pickBest]
    by_cases h : lt y x = true
    · rw [if_pos h]
      rcases ih y with h1 | h1
      · right; rw [h1]; exact h
      · right; exact htrans _ _ _ h1 h
    · rw [if_neg h]
      exact ih x

/-- Nothing in the scanned list is strictly preferred to what `pickBest`
returns: the result is minimal for the preference. -/
theorem pickBest_not_lt {α : Type} (lt : α → α → Bool)
    (htrans : ∀ a b c, lt a b = true → lt b c = true → lt a c = true)
    (hasym : ∀ a b, lt a b = true → lt b a = false)
    (x : α) (l : List α) :
    ∀ b ∈ x :: l, lt b (pickBest lt x l) = false := by
  induction l generalizing x with
  | nil =>
    intro b hb
    rw [List.mem_singleton] at hb
    subst hb
    rw [pickBest]
    cases hbb : lt b b with
    | false => rfl
    | true =>
      have h1 := hasym b b hbb
      rw [hbb] at h1
      exact absurd h1 (by simp)
  | cons y ys ih =>
    intro b hb
    rw [pickBest]
    by_cases h : lt y x = true
    · rw [if_pos h]
      rcases List.mem_cons.mp hb with rfl | hb2
      · rcases pickBest_imp lt htrans y ys with h1 | h1
        · rw [h1]; exact hasym y b h
        · cases hxp : lt b (pickBest lt y ys) with
          | false => rfl
          | true =>
            have h2 := htrans b (pickBest lt y ys) y hxp h1
            have h3 := hasym y b h
            rw [h2] at h3
            exact absurd h3 (by simp)
      · exact ih y b hb2
    · rw [if_neg h]
      have hf : lt y x = false := by
        cases hyx : lt y x with
        | false => rfl
        | true => exact absurd hyx h
      rcases List.mem_cons.mp hb with rfl | hb2
      · exact ih b b (List.mem_cons_self b ys)
      · rcases List.mem_cons.mp hb2 with rfl | hb3
        · rcases pickBest_imp lt htrans x ys with h1 | h1
          · rw [h1]; exact hf
          · cases hyp : lt b (pickBest lt x ys) with
            | false => rfl
            | true =>
              have h2 := htrans b _ x hyp h1
              rw [h2] at hf
              exact absurd hf (by simp)
        · exact ih x b (List.mem_cons_of_mem x hb3)

/-- When the preference is a strict key comparison and the list ids are
strictly increasing, `pickBest` returns the entry with the lowest id among
those attaining the minimal key — the tie-breaking behaviour of Python's
stable sort over an id-ordered list. -/
theorem pickBest_tie {α : Type} (lt : α → α → Bool) (key : α → ℚ) (idOf : α → Nat)
    (hk : ∀ a b, lt a b = true ↔ key a < key b) :
    ∀ (l : List α) (x : α),
      (x :: l).Pairwise (fun a b => idOf a < idOf b) →
      ∀ b ∈ x :: l, key b = key (pickBest lt x l) →
        idOf (pickBest lt x l) ≤ idOf b := by
  have htrans : ∀ a b c, lt a b = true → lt b c = true → lt a c = true := by
    intro a b c h1 h2
    rw [hk] at *
    linarith
  intro l
  induction l with
  | nil =>
    intro x _ b hb _
    rw [List.mem_singleton] at hb
    subst hb
    exact le_refl _
  | cons y ys ih =>
    intro x hpw b hb hkey
    have hx : ∀ c ∈ y :: ys, idOf x < idOf c := (List.pairwise_cons.mp hpw).1
    have hpw2 := (List.pairwise_cons.mp hpw).2
    by_cases h : lt y x = true
    · rw [pickBest, if_pos h] at hkey ⊢
      rcases List.mem_cons.mp hb with rfl | hb2
      · exfalso
        have hkx : key (pickBest lt y ys) ≤ key y := by
          rcases pickBest_imp lt htrans y ys with h1 | h1
          · rw [h1]
          · rw [hk] at h1; linarith
        have hyx : key y < key b := (hk y b).mp h
        linarith [le_of_eq hkey]
      · exact ih y hpw2 b hb2 hkey
    · rw [pickBest, if_neg h] at hkey ⊢
      have hneg : key x ≤ key y := by
        by_contra hc
        exact h ((hk y x).mpr (lt_of_not_le hc))
      have hpw3 : (x :: ys).Pairwise (fun a b => idOf a < idOf b) := by
        rw [List.pairwise_cons]
        exact ⟨fun c hc => hx c (List.mem_cons_of_mem y hc),
               (List.pairwise_cons.mp hpw2).2⟩
      rcases List.mem_cons.mp hb with rfl | hb2
      · exact ih b hpw3 b (List.mem_cons_self b ys) hkey
      · rcases List.mem_cons.mp hb2 with rfl | hb3
        · rcases pickBest_imp lt htrans x ys with h1 | h1
          · rw [h1]
            exact le_of_lt (hx b (List.mem_cons_self b ys))
          · exfalso
            rw [hk] at h1
            linarith [le_of_eq hkey]
        · exact ih x hpw3 b (List.mem_cons_of_mem x hb3) hkey

/-- Updating the first match puts the updated element in the list. -/
theorem find?_updateFirst {α : Type} (p : α → Bool) (f : α → α) (l : List α) (v : α)
    (h : l.find? p = some v) : f v ∈ updateFirst p f l := by
  induction l with
  | nil => simp [List.find?] at h
  | cons x xs ih =>
    by_cases hx : p x = true
    · rw [List.find?_cons_of_pos _ hx] at h
      rw [updateFirst, if_pos hx]
      rw [Option.some_inj] at h
      rw [← h]
      exact List.mem_cons_self _ _
    · rw [List.find?_cons_of_neg _ hx] at h
      rw [updateFirst, if_neg hx]
      exact List.mem_cons_of_mem _ (ih h)

/-- Members of `updateFirst p f l` are members of `l` or images under `f`
of members of `l`. -/
theorem mem_updateFirst {α : Type} (p : α → Bool) (f : α → α) (l : List α) (z : α)
    (h : z ∈ updateFirst p f l) : z ∈ l ∨ ∃ w ∈ l, z = f w := by
  induction l with
  | nil => simp [updateFirst] at h
  | cons x xs ih =>
    rw [updateFirst] at h
    by_cases hx : p x = true
    · rw [if_pos hx] at h
      rcases List.mem_cons.mp h with rfl | h2
      · exact Or.inr ⟨x, List.mem_cons_self x xs, rfl⟩
      · exact Or.inl (List.mem_cons_of_mem x h2)
    · rw [if_neg hx] at h
      rcases List.mem_cons.mp h with rfl | h2
      · exact Or.inl (List.mem_cons_self z xs)
      · rcases ih h2 with h3 | ⟨w, hw, hzw⟩
        · exact Or.inl (List.mem_cons_of_mem x h3)
        · exact Or.inr ⟨w, List.mem_cons_of_mem x hw, hzw⟩

/-- When the keys of `l` are distinct, updating the first key match is the
same as updating every key match: the list-object aliasing of the Python
code and a whole-list rewrite agree on states with unique ids. -/
theorem updateFirst_eq_map {α : Type} (f : α → α) (key : α → Nat) (k : Nat)
    (l : List α) (h : (l.map key).Nodup) :
    updateFirst (fun x => key x == k) f l =
      l.map (fun x => if key x == k then f x else x) := by
  induction l with
  | nil => rfl
  | cons x xs ih =>
    rw [List.map_cons, List.nodup_cons] at h
    by_cases hx : (key x == k) = true
    · rw [updateFirst, if_pos hx, List.map_cons, if_pos hx]
      congr 1
      have hxk : key x = k := by simpa using hx
      have hall : ∀ z ∈ xs, (if key z == k then f z else z) = z := by
        intro z hz
        rw [if_neg]
        intro hzk
        have hzk2 : key z = k := by simpa using hzk
        exact h.1 (by rw [hxk, ← hzk2]; exact List.mem_map_of_mem key hz)
      rw [List.map_congr_left hall]
      exact (List.map_id' xs).symm
    · rw [updateFirst, if_neg hx, List.map_cons, if_neg hx]
      rw [ih h.2]

/-- The bin preference is transitive. -/
theorem binBetter_trans :
    ∀ a b c : Bin, binBetter a b = true → binBetter b c = true → binBetter a c = true := by
  intro a b c h1 h2
  simp only [binBetter, Bool.or_eq_true, Bool.and_eq_true, decide_eq_true_eq] at h1 h2 ⊢
  rcases h1 with h1 | ⟨h1a, h1b⟩ <;> rcases h2 with h2 | ⟨h2a, h2b⟩
  · exact Or.inl (lt_trans h2 h1)
  · rw [h2a] at h1
    exact Or.inl h1
  · rw [← h1a] at h2
    exact Or.inl h2
  · exact Or.inr ⟨h1a.trans h2a, lt_trans h1b h2b⟩

/-- The bin preference is asymmetric. -/
theorem binBetter_asym :
    ∀ a b : Bin, binBetter a b = true → binBetter b a = false := by
  intro a b h
  simp only [binBetter, Bool.or_eq_true, Bool.and_eq_true, decide_eq_true_eq] at h
  cases hba : binBetter b a with
  | false => rfl
  | true =>
    exfalso
    simp only [binBetter, Bool.or_eq_true, Bool.and_eq_true, decide_eq_true_eq] at hba
    rcases h with h | ⟨h1, h2⟩ <;> rcases hba with h3 | ⟨h3, h4⟩
    · linarith
    · linarith [h3.le]
    · linarith [h1.le]
    · omega

/-- A false bin preference unfolds to the two claim-side conditions. -/
theorem binBetter_false {c b : Bin} (h : binBetter c b = false) :
    c.fill ≤ b.fill ∧ (c.fill = b.fill → b.id ≤ c.id) := by
  have h2 : ¬(b.fill < c.fill ∨ (c.fill = b.fill ∧ c.id < b.id)) := by
    intro hcontra
    rcases hcontra with h3 | ⟨h3, h4⟩
    · simp [binBetter, h3] at h
    · simp [binBetter, h3, h4] at h
  push_neg at h2
  exact ⟨h2.1, fun hfb => h2.2 hfb⟩

/-- Strict key comparison is transitive. -/
theorem keyed_trans {α : Type} (key : α → ℚ) :
    ∀ a b c : α, decide (key a < key b) = true → decide (key b < key c) = true →
      decide (key a < key c) = true := by
  intro a b c h1 h2
  simp only [decide_eq_true_eq] at h1 h2 ⊢
  linarith

/-- Strict key comparison is asymmetric. -/
theorem keyed_asym {α : Type} (key : α → ℚ) :
    ∀ a b : α, decide (key a < key b) = true → decide (key b < key a) = false := by
  intro a b h
  simp only [decide_eq_true_eq] at h
  exact decide_eq_false (not_lt.mpr h.le)

/-- Equation of `assign_nearest_full_1` on the dispatching branch. -/
theorem assign_1_snd (distFn : ℚ → ℚ → ℚ → ℚ → ℚ) (st : SysState)
    (fb : Bin) (fbs : List Bin) (v0 : Vehicle) (vs : List Vehicle)
    (hcb : candidate_bins st.bins st.vehicles = fb :: fbs)
    (hiv : idle_vehicles st.vehicles = v0 :: vs) :
    (assign_nearest_full_1 distFn st).2 =
      some { vehicle_id := (pickBest (vehicleBetter distFn 50 (pickBest binBetter fb fbs)) v0 vs).id,
             bin_id := (pickBest binBetter fb fbs).id,
             distance := round1 (distFn
               (pickBest (vehicleBetter distFn 50 (pickBest binBetter fb fbs)) v0 vs).lat
               (pickBest (vehicleBetter distFn 50 (pickBest binBetter fb fbs)) v0 vs).lng
               (pickBest binBetter fb fbs).lat (pickBest binBetter fb fbs).lng) } := by
  unfold assign_nearest_full_1
  rw [hcb, hiv]

/-- Equation of `assign_nearest_full_app` on the dispatching branch. -/
theorem assign_app_snd (distFn : ℚ → ℚ → ℚ → ℚ → ℚ) (k : Nat) (e : ℚ) (st : AppState)
    (fb : Bin) (fbs : List Bin) (v0 : AppVehicle) (vs : List AppVehicle)
    (hcb : app_candidate_bins st.bins st.vehicles = fb :: fbs)
    (hiv : app_idle_vehicles st.vehicles = v0 :: vs) :
    (assign_nearest_full_app distFn k e st).2 =
      some { vehicle_id := (pickBest (appVehicleBetter distFn 75 ((fb :: fbs).getD k fb)) v0 vs).id,
             bin_id := ((fb :: fbs).getD k fb).id,
             distance := round1 (distFn
               (pickBest (appVehicleBetter distFn 75 ((fb :: fbs).getD k fb)) v0 vs).lat
               (pickBest (appVehicleBetter distFn 75 ((fb :: fbs).getD k fb)) v0 vs).lng
               ((fb :: fbs).getD k fb).lat ((fb :: fbs).getD k fb).lng) } := by
  unfold assign_nearest_full_app
  rw [hcb, hiv]

/-- Single FULL bin used in concrete dispatch scenarios. -/
def sysBinFull : Bin :=
  { id := 1, lat := 0, lng := 0, fill := 100, status := BinStatus.FULL }

/-- Single idle vehicle used in concrete dispatch scenarios. -/
def sysVehIdle : Vehicle :=
  { id := 1, lat := 0, lng := 0, status := VStatus.IDLE, target_bin := none,
    completed := 0, total_distance := 0, moving := false, targetPath := none,
    speed := 6 }

/-- Concrete app_1.py state with one FULL untargeted bin and one idle
vehicle. -/
def sys_dispatch_state : SysState :=
  { bins := [sysBinFull], vehicles := [sysVehIdle], assignments := [],
    comparisons := [], alerts := [], completed := 0, distance := 0,
    avg_eta := 0, tripsOverTime := [] }

/-- C1 (amended): in the app_1.py variant, whenever `assign_nearest_full`
runs with at least one candidate FULL bin (FULL and untargeted) and at least
one idle vehicle, the bin it assigns is a candidate bin whose fill is
maximal among the candidates, with ties broken by the lowest bin id, for
every distance function — so the app_1.py selection is deterministic.  (The
app.py variant instead draws the bin with `random.choice`; see the
counterexample.) -/
theorem C1_app1_bin_selection (distFn : ℚ → ℚ → ℚ → ℚ → ℚ) (st : SysState)
    (hc : candidate_bins st.bins st.vehicles ≠ [])
    (hi : idle_vehicles st.vehicles ≠ []) :
    ∃ rec1, (assign_nearest_full_1 distFn st).2 = some rec1 ∧
      ∃ b ∈ candidate_bins st.bins st.vehicles, rec1.bin_id = b.id ∧
        ∀ c ∈ candidate_bins st.bins st.vehicles,
          c.fill ≤ b.fill ∧ (c.fill = b.fill → b.id ≤ c.id) := by
  obtain ⟨fb, fbs, hcb⟩ : ∃ fb fbs, candidate_bins st.bins st.vehicles = fb :: fbs := by
    cases h : candidate_bins st.bins st.vehicles with
    | nil => exact absurd h hc
    | cons a l => exact ⟨a, l, rfl⟩
  obtain ⟨v0, vs, hiv⟩ : ∃ v0 vs, idle_vehicles st.vehicles = v0 :: vs := by
    cases h : idle_vehicles st.vehicles with
    | nil => exact absurd h hi
    | cons a l => exact ⟨a, l, rfl⟩
  refine ⟨_, assign_1_snd distFn st fb fbs v0 vs hcb hiv,
          pickBest binBetter fb fbs, ?_, rfl, ?_⟩
  · rw [hcb]
    rcases pickBest_mem binBetter fb fbs with h | h
    · rw [h]; exact List.mem_cons_self _ _
    · exact List.mem_cons_of_mem _ h
  · intro c hc2
    rw [hcb] at hc2
    exact binBetter_false (pickBest_not_lt binBetter binBetter_trans binBetter_asym fb fbs c hc2)

/-- Witness for C1: the selection property holds at a concrete one-bin,
one-vehicle state. -/
theorem C1_app1_bin_selection_witness :
    ∃ rec1, (assign_nearest_full_1 (fun _ _ _ _ => 0) sys_dispatch_state).2 = some rec1 ∧
      ∃ b ∈ candidate_bins sys_dispatch_state.bins sys_dispatch_state.vehicles,
        rec1.bin_id = b.id ∧
        ∀ c ∈ candidate_bins sys_dispatch_state.bins sys_dispatch_state.vehicles,
          c.fill ≤ b.fill ∧ (c.fill = b.fill → b.id ≤ c.id) :=
  C1_app1_bin_selection (fun _ _ _ _ => 0) sys_dispatch_state (by decide) (by decide)

/-- First FULL bin of the app.py counterexample state. -/
def appBinFull1 : Bin :=
  { id := 1, lat := 0, lng := 0, fill := 100, status := BinStatus.FULL }

/-- Second FULL bin of the app.py counterexample state. -/
def appBinFull2 : Bin :=
  { id := 2, lat := 0, lng := 0, fill := 100, status := BinStatus.FULL }

/-- Single idle vehicle of the app.py counterexample state. -/
def appVehIdle : AppVehicle :=
  { id := 1, lat := 0, lng := 0, status := VStatus.IDLE, target_bin := none,
    completed := 0, total_distance := 0 }

/-- Concrete app.py state with two candidate FULL bins (ids 1 and 2, both
fill 100) and one idle vehicle. -/
def app_cex_state : AppState :=
  { bins := [appBinFull1, appBinFull2], vehicles := [appVehIdle],
    assignments := [], comparisons := [], alerts := [], completed := 0,
    ai_efficiency := 0 }

/-- Counterexample to C1 as stated: in the app.py variant the dispatched bin
comes from `random.choice`; with two candidate bins of equal (maximal) fill
100 and the random draw picking index 1, the assigned bin has id 2, not the
lowest id 1 demanded by the claim's tie-break — the selection is not
determined by the bins' and vehicles' state. -/
theorem C1_counterexample :
    (assign_nearest_full_app (fun _ _ _ _ => 0) 1 0 app_cex_state).2.map
        AssignRec.bin_id = some 2 ∧
    appBinFull1 ∈ app_candidate_bins app_cex_state.bins app_cex_state.vehicles ∧
    appBinFull1.id = 1 ∧ appBinFull1.fill = 100 ∧
    (∀ c ∈ app_candidate_bins app_cex_state.bins app_cex_state.vehicles,
      c.fill ≤ 100) ∧ (2 : Nat) ≠ 1 := by
  refine ⟨?_, by decide, by decide, by decide, by decide, by decide⟩
  rw [assign_app_snd (fun _ _ _ _ => 0) 1 0 app_cex_state appBinFull1 [appBinFull2]
      appVehIdle [] (by decide) (by decide)]
  rfl

/-- An indexed lookup with a default answers a list member or the default. -/
theorem getD_mem_or_eq {α : Type} :
    ∀ (l : List α) (k : Nat) (d : α), l.getD k d ∈ l ∨ l.getD k d = d := by
  intro l
  induction l with
  | nil =>
    intro k d
    exact Or.inr rfl
  | cons x xs ih =>
    intro k d
    cases k with
    | zero => exact Or.inl (List.mem_cons_self x xs)
    | succ n =>
      have he : (x :: xs).getD (n + 1) d = xs.getD n d := rfl
      rw [he]
      rcases ih n d with h | h
      · exact Or.inl (List.mem_cons_of_mem x h)
      · exact Or.inr h

/-- The bin `random.choice` draws in app.py's dispatch is one of the
candidate bins. -/
theorem cons_getD_mem {α : Type} (x : α) (l : List α) (k : Nat) :
    (x :: l).getD k x ∈ x :: l := by
  rcases getD_mem_or_eq (x :: l) k x with h | h
  · exact h
  · rw [h]
    exact List.mem_cons_self x l

/-- C8: in both variants, whenever `assign_nearest_full` dispatches (a bin
was selected and the idle set is non-empty), the selected bin `bSel` is one
of the state's candidate bins, the assignment record names it, and the
vehicle assigned is an idle vehicle whose score
`distance(vehicle, bSel) + completed * PENALTY` (PENALTY = 50 in app_1.py,
75 in app.py) is minimal for that selected bin, with ties broken by the
lowest vehicle id — the id tie-break holding whenever the idle list is
ordered by strictly increasing ids, as the program's fixed vehicle registry
is. -/
theorem C8_vehicle_scoring :
    (∀ (distFn : ℚ → ℚ → ℚ → ℚ → ℚ) (st : SysState) (fb : Bin) (fbs : List Bin)
       (v0 : Vehicle) (vs : List Vehicle),
       candidate_bins st.bins st.vehicles = fb :: fbs →
       idle_vehicles st.vehicles = v0 :: vs →
       (v0 :: vs).Pairwise (fun a b => a.id < b.id) →
       ∃ rec1 bSel nv,
         (assign_nearest_full_1 distFn st).2 = some rec1 ∧
         bSel ∈ candidate_bins st.bins st.vehicles ∧
         rec1.bin_id = bSel.id ∧ rec1.vehicle_id = nv.id ∧
         rec1.distance = round1 (distFn nv.lat nv.lng bSel.lat bSel.lng) ∧
         nv ∈ idle_vehicles st.vehicles ∧
         ∀ u ∈ idle_vehicles st.vehicles,
           vehicle_score distFn 50 bSel nv ≤ vehicle_score distFn 50 bSel u ∧
           (vehicle_score distFn 50 bSel u = vehicle_score distFn 50 bSel nv →
             nv.id ≤ u.id)) ∧
    (∀ (distFn : ℚ → ℚ → ℚ → ℚ → ℚ) (k : Nat) (e : ℚ) (st : AppState)
       (fb : Bin) (fbs : List Bin) (v0 : AppVehicle) (vs : List AppVehicle),
       app_candidate_bins st.bins st.vehicles = fb :: fbs →
       app_idle_vehicles st.vehicles = v0 :: vs →
       (v0 :: vs).Pairwise (fun a b => a.id < b.id) →
       ∃ rec1 bSel nv,
         (assign_nearest_full_app distFn k e st).2 = some rec1 ∧
         bSel ∈ app_candidate_bins st.bins st.vehicles ∧
         rec1.bin_id = bSel.id ∧ rec1.vehicle_id = nv.id ∧
         rec1.distance = round1 (distFn nv.lat nv.lng bSel.lat bSel.lng) ∧
         nv ∈ app_idle_vehicles st.vehicles ∧
         ∀ u ∈ app_idle_vehicles st.vehicles,
           app_vehicle_score distFn 75 bSel nv ≤ app_vehicle_score distFn 75 bSel u ∧
           (app_vehicle_score distFn 75 bSel u = app_vehicle_score distFn 75 bSel nv →
             nv.id ≤ u.id)) := by
  constructor
  · intro distFn st fb fbs v0 vs hcb hiv hpw
    refine ⟨_, pickBest binBetter fb fbs,
            pickBest (vehicleBetter distFn 50 (pickBest binBetter fb fbs)) v0 vs,
            assign_1_snd distFn st fb fbs v0 vs hcb hiv, ?_, rfl, rfl, rfl, ?_, ?_⟩
    · rw [hcb]
      rcases pickBest_mem binBetter fb fbs with h | h
      · rw [h]; exact List.mem_cons_self _ _
      · exact List.mem_cons_of_mem _ h
    · rw [hiv]
      rcases pickBest_mem (vehicleBetter distFn 50 (pickBest binBetter fb fbs)) v0 vs with h | h
      · rw [h]; exact List.mem_cons_self _ _
      · exact List.mem_cons_of_mem _ h
    · intro u hu
      rw [hiv] at hu
      have hfalse := pickBest_not_lt (vehicleBetter distFn 50 (pickBest binBetter fb fbs))
        (keyed_trans (vehicle_score distFn 50 (pickBest binBetter fb fbs)))
        (keyed_asym (vehicle_score distFn 50 (pickBest binBetter fb fbs))) v0 vs u hu
      constructor
      · by_contra hlt
        have h2 : vehicleBetter distFn 50 (pickBest binBetter fb fbs) u
            (pickBest (vehicleBetter distFn 50 (pickBest binBetter fb fbs)) v0 vs) = true :=
          decide_eq_true (lt_of_not_le hlt)
        rw [h2] at hfalse
        simp at hfalse
      · intro hequ
        exact pickBest_tie (vehicleBetter distFn 50 (pickBest binBetter fb fbs))
          (vehicle_score distFn 50 (pickBest binBetter fb fbs)) Vehicle.id
          (fun a b => by simp [vehicleBetter]) vs v0 hpw u hu hequ
  · intro distFn k e st fb fbs v0 vs hcb hiv hpw
    refine ⟨_, (fb :: fbs).getD k fb,
            pickBest (appVehicleBetter distFn 75 ((fb :: fbs).getD k fb)) v0 vs,
            assign_app_snd distFn k e st fb fbs v0 vs hcb hiv, ?_, rfl, rfl, rfl, ?_, ?_⟩
    · rw [hcb]
      exact cons_getD_mem fb fbs k
    · rw [hiv]
      rcases pickBest_mem (appVehicleBetter distFn 75 ((fb :: fbs).getD k fb)) v0 vs with h | h
      · rw [h]; exact List.mem_cons_self _ _
      · exact List.mem_cons_of_mem _ h
    · intro u hu
      rw [hiv] at hu
      have hfalse := pickBest_not_lt (appVehicleBetter distFn 75 ((fb :: fbs).getD k fb))
        (keyed_trans (app_vehicle_score distFn 75 ((fb :: fbs).getD k fb)))
        (keyed_asym (app_vehicle_score distFn 75 ((fb :: fbs).getD k fb))) v0 vs u hu
      constructor
      · by_contra hlt
        have h2 : appVehicleBetter distFn 75 ((fb :: fbs).getD k fb) u
            (pickBest (appVehicleBetter distFn 75 ((fb :: fbs).getD k fb)) v0 vs) = true :=
          decide_eq_true (lt_of_not_le hlt)
        rw [h2] at hfalse
        simp at hfalse
      · intro hequ
        exact pickBest_tie (appVehicleBetter distFn 75 ((fb :: fbs).getD k fb))
          (app_vehicle_score distFn 75 ((fb :: fbs).getD k fb)) AppVehicle.id
          (fun a b => by simp [appVehicleBetter]) vs v0 hpw u hu hequ

/-- Witness for C8: the app_1.py half applied at the concrete one-bin,
one-vehicle dispatch state. -/
theorem C8_vehicle_scoring_witness :
    ∃ rec1 bSel nv,
      (assign_nearest_full_1 (fun _ _ _ _ => 0) sys_dispatch_state).2 = some rec1 ∧
      bSel ∈ candidate_bins sys_dispatch_state.bins sys_dispatch_state.vehicles ∧
      rec1.bin_id = bSel.id ∧ rec1.vehicle_id = nv.id ∧
      rec1.distance = round1 ((fun _ _ _ _ => (0:ℚ)) nv.lat nv.lng bSel.lat bSel.lng) ∧
      nv ∈ idle_vehicles sys_dispatch_state.vehicles ∧
      ∀ u ∈ idle_vehicles sys_dispatch_state.vehicles,
        vehicle_score (fun _ _ _ _ => 0) 50 bSel nv ≤
          vehicle_score (fun _ _ _ _ => 0) 50 bSel u ∧
        (vehicle_score (fun _ _ _ _ => 0) 50 bSel u =
            vehicle_score (fun _ _ _ _ => 0) 50 bSel nv → nv.id ≤ u.id) :=
  C8_vehicle_scoring.1 (fun _ _ _ _ => 0) sys_dispatch_state sysBinFull [] sysVehIdle []
    (by decide) (by decide) (by decide)

/-- C2: behaviour of both `complete_trip` variants on unknown ids, at a
concrete initial-shaped state.  app_1.py answers the distinct `notFound`
result and leaves the state untouched, exactly as the claim demands; app.py
instead answers the generic success `ok`, increments the system completed
counter and appends a completion alert even though no vehicle or bin
matched — the divergence that makes this claim a code bug in app.py. -/
theorem C2_unknown_ids_behaviour :
    (complete_trip_1 sys_test_state 99 99).1 = sys_test_state ∧
    (complete_trip_1 sys_test_state 99 99).2 = TripResult.notFound ∧
    (complete_trip_app app_test_state 99 99).2 = TripResult.ok ∧
    (complete_trip_app app_test_state 99 99).1.completed =
      app_test_state.completed + 1 ∧
    (complete_trip_app app_test_state 99 99).1.alerts =
      app_test_state.alerts ++ [completeMsg 99 99] :=
  ⟨rfl, rfl, rfl, rfl, rfl⟩

/-- C9: in either variant, for any state in which vehicle `vid` and bin
`bid` both resolve — in particular right after `assign_nearest_full`
assigned `vid` to `bid` — `complete_trip` succeeds, restores the vehicle to
IDLE with no target bin (and, in app_1.py, no moving flag and no route),
resets the bin to fill 0 and status OK, and increments both the vehicle's
completed counter and the system-wide completed counter by exactly one. -/
theorem C9_round_trip :
    (∀ (st : SysState) (vid bid : Nat) (v : Vehicle) (b : Bin),
       st.vehicles.find? (fun x => x.id == vid) = some v →
       st.bins.find? (fun x => x.id == bid) = some b →
       (complete_trip_1 st vid bid).2 = TripResult.ok ∧
       { v with status := VStatus.IDLE, target_bin := none, moving := false,
                targetPath := none, completed := v.completed + 1 } ∈
         (complete_trip_1 st vid bid).1.vehicles ∧
       { b with fill := 0, status := BinStatus.OK } ∈
         (complete_trip_1 st vid bid).1.bins ∧
       (complete_trip_1 st vid bid).1.completed = st.completed + 1) ∧
    (∀ (st : AppState) (vid bid : Nat) (v : AppVehicle) (b : Bin),
       st.vehicles.find? (fun x => x.id == vid) = some v →
       st.bins.find? (fun x => x.id == bid) = some b →
       (complete_trip_app st vid bid).2 = TripResult.ok ∧
       { v with status := VStatus.IDLE, target_bin := none,
                completed := v.completed + 1 } ∈
         (complete_trip_app st vid bid).1.vehicles ∧
       { b with fill := 0, status := BinStatus.OK } ∈
         (complete_trip_app st vid bid).1.bins ∧
       (complete_trip_app st vid bid).1.completed = st.completed + 1) := by
  constructor
  · intro st vid bid v b hv hb
    unfold complete_trip_1
    rw [hv, hb]
    refine ⟨rfl, ?_, ?_, rfl⟩
    · exact find?_updateFirst _ _ _ _ hv
    · exact find?_updateFirst _ _ _ _ hb
  · intro st vid bid v b hv hb
    have hvmem := List.mem_of_find?_eq_some hv
    have hvp := List.find?_some hv
    have hbmem := List.mem_of_find?_eq_some hb
    have hbp := List.find?_some hb
    refine ⟨rfl, ?_, ?_, rfl⟩
    · exact List.mem_map.mpr ⟨v, hvmem, by rw [if_pos hvp]⟩
    · exact List.mem_map.mpr ⟨b, hbmem, by rw [if_pos hbp]⟩

/-- Witness for C9: both halves applied at concrete states with vehicle 1
assigned to bin 1. -/
theorem C9_round_trip_witness :
    ((complete_trip_1 sys_dispatch_state 1 1).2 = TripResult.ok ∧
     { sysVehIdle with
         status := VStatus.IDLE, target_bin := none, moving := false,
         targetPath := none, completed := sysVehIdle.completed + 1 } ∈
       (complete_trip_1 sys_dispatch_state 1 1).1.vehicles ∧
     { sysBinFull with fill := 0, status := BinStatus.OK } ∈
       (complete_trip_1 sys_dispatch_state 1 1).1.bins ∧
     (complete_trip_1 sys_dispatch_state 1 1).1.completed =
       sys_dispatch_state.completed + 1) ∧
    ((complete_trip_app app_cex_state 1 1).2 = TripResult.ok ∧
     { appVehIdle with
         status := VStatus.IDLE, target_bin := none,
         completed := appVehIdle.completed + 1 } ∈
       (complete_trip_app app_cex_state 1 1).1.vehicles ∧
     { appBinFull1 with fill := 0, status := BinStatus.OK } ∈
       (complete_trip_app app_cex_state 1 1).1.bins ∧
     (complete_trip_app app_cex_state 1 1).1.completed =
       app_cex_state.completed + 1) :=
  ⟨C9_round_trip.1 sys_dispatch_state 1 1 sysVehIdle sysBinFull rfl rfl,
   C9_round_trip.2 app_cex_state 1 1 appVehIdle appBinFull1 rfl rfl⟩

/-- C10: `compute_eta_seconds` answers 0 whenever the speed is ≤ 0 and only
divides when the speed is strictly positive — hence non-zero — so the
driver-view ETA computation of `driver_dashboard` (app_1.py:437-438) never
divides by zero, whatever the vehicle speed. -/
theorem C10_eta_guard :
    ∀ d s : ℚ, (s ≤ 0 → compute_eta_seconds d s = 0) ∧
      (0 < s → compute_eta_seconds d s = d / s ∧ s ≠ 0) := by
  intro d s
  constructor
  · intro h
    rw [compute_eta_seconds, if_pos h]
  · intro h
    rw [compute_eta_seconds, if_neg (not_le.mpr h)]
    exact ⟨rfl, ne_of_gt h⟩

/-- Witness for C10 at speed 0 and speed 2. -/
theorem C10_eta_guard_witness :
    compute_eta_seconds 7 0 = 0 ∧ compute_eta_seconds 7 2 = 7 / 2 ∧ (2 : ℚ) ≠ 0 :=
  ⟨(C10_eta_guard 7 0).1 (by norm_num),
   ((C10_eta_guard 7 2).2 (by norm_num)).1,
   ((C10_eta_guard 7 2).2 (by norm_num)).2⟩

/-- C6: the fill predictor of both variants never moves below the current
fill and never above 100: for every bin fill within the data model's 0-100
range and every growth value in the random source's support (app.py draws
from [1, 4], app_1.py from [base, base + 2.5] with base 0.6 or 0.2, so
every draw is ≥ 1/5), `predict_fill` lands between the old fill and 100. -/
theorem C6_predict_fill_bounds (fill g : ℚ) (hfill : fill ≤ 100) (hg : 1/5 ≤ g) :
    fill ≤ predict_fill fill g ∧ predict_fill fill g ≤ 100 := by
  constructor
  · rcases le_total 100 (fill + g) with h | h
    · rw [predict_fill, min_eq_left h, round2_hundred]
      exact hfill
    · rw [predict_fill, min_eq_right h]
      have h2 := (round2_sub_le (fill + g)).1
      linarith
  · rw [predict_fill]
    calc round2 (min 100 (fill + g)) ≤ round2 100 := round2_mono (min_le_left _ _)
    _ = 100 := round2_hundred

/-- Witness for C6 at fill 40 and growth 2. -/
theorem C6_predict_fill_bounds_witness :
    (40 : ℚ) ≤ predict_fill 40 2 ∧ predict_fill 40 2 ≤ 100 :=
  C6_predict_fill_bounds 40 2 (by norm_num) (by norm_num)

/-- The alerts produced by one pass of app_1.py's `predict_fills` are
exactly one alert per bin whose updated fill reaches 100 from a status
other than FULL, in bin order. -/
theorem filterMap_predictStep (growth : Bin → ℚ) (l : List Bin) :
    l.filterMap (fun b => (predictStep growth b).2) =
      (l.filter (fun b => decide (100 ≤ predict_fill b.fill (growth b)) &&
        !(b.status == BinStatus.FULL))).map (fun b => predictMsg1 b.id) := by
  induction l with
  | nil => rfl
  | cons b bs ih =>
    by_cases h : 100 ≤ predict_fill b.fill (growth b) ∧ ¬b.status = BinStatus.FULL
    · have hstep : (predictStep growth b).2 = some (predictMsg1 b.id) := by
        simp only [predictStep]
        rw [if_pos h]
      have hcond : (decide (100 ≤ predict_fill b.fill (growth b)) &&
          !(b.status == BinStatus.FULL)) = true := by
        simp [h.1, h.2]
      rw [@List.filterMap_cons_some _ _ (fun b => (predictStep growth b).2) b bs _ hstep,
          @List.filter_cons_of_pos _ (fun b => decide (100 ≤ predict_fill b.fill (growth b)) &&
            !(b.status == BinStatus.FULL)) b bs hcond,
          List.map_cons, ih]
    · have hstep : (predictStep growth b).2 = none := by
        simp only [predictStep]
        rw [if_neg h]
      have hcond : (decide (100 ≤ predict_fill b.fill (growth b)) &&
          !(b.status == BinStatus.FULL)) = false := by
        rcases Decidable.not_and_iff_or_not.mp h with h2 | h2
        · simp [h2]
        · simp [Decidable.not_not.mp h2]
      rw [@List.filterMap_cons_none _ _ (fun b => (predictStep growth b).2) b bs hstep,
          @List.filter_cons_of_neg _ (fun b => decide (100 ≤ predict_fill b.fill (growth b)) &&
            !(b.status == BinStatus.FULL)) b bs (by simp [hcond]), ih]

/-- C3 (amended): app_1.py's `predict_fills` endpoint appends exactly one
FULL alert per bin that crosses into fill ≥ 100 from a non-FULL status, and
appends none for bins already FULL — in particular repeated passes over a
state whose bins are all FULL append no alert.  (The `auto_loop` of both
variants and app.py's `predict_fills` lack the status guard and append an
alert on every pass while fill ≥ 100; see the counterexample.) -/
theorem C3_alert_once_per_crossing (growth : Bin → ℚ) (st : SysState) :
    (predict_fills_1 growth st).alerts = st.alerts ++
      ((st.bins.filter (fun b => decide (100 ≤ predict_fill b.fill (growth b)) &&
        !(b.status == BinStatus.FULL))).map (fun b => predictMsg1 b.id)) ∧
    ((∀ b ∈ st.bins, b.status = BinStatus.FULL) →
      (predict_fills_1 growth st).alerts = st.alerts) := by
  have h1 : (predict_fills_1 growth st).alerts =
      st.alerts ++ st.bins.filterMap (fun b => (predictStep growth b).2) := rfl
  constructor
  · rw [h1, filterMap_predictStep]
  · intro hall
    rw [h1, filterMap_predictStep]
    have hnil : st.bins.filter (fun b => decide (100 ≤ predict_fill b.fill (growth b)) &&
        !(b.status == BinStatus.FULL)) = [] := by
      rw [List.filter_eq_nil_iff]
      intro b hb
      simp [hall b hb]
    rw [hnil]
    simp

/-- Witness for C3: a pass of `predict_fills` over a state whose only bin is
already FULL appends no alert. -/
theorem C3_alert_once_per_crossing_witness :
    (predict_fills_1 (fun _ => 1) sys_dispatch_state).alerts =
      sys_dispatch_state.alerts :=
  (C3_alert_once_per_crossing (fun _ => 1) sys_dispatch_state).2 (by decide)

/-- Evaluation fact used by the C3 counterexample: a bin already at fill 100
is predicted to stay at 100. -/
theorem predict_fill_at_100 : predict_fill 100 1 = 100 := by
  have h : min (100:ℚ) (100 + 1) = 100 := by norm_num
  rw [predict_fill, h, round2_hundred]

/-- Counterexample to C3 as stated: both cited fill-update loops append a
fresh alert for a bin that is already FULL.  The app_1.py `auto_loop`
prediction pass over a state whose only bin is FULL at fill 100 appends the
FULL-capacity alert again, and app.py's `predict_fills` run over the
two-FULL-bin state appends an alert for each already-FULL bin. -/
theorem C3_counterexample :
    (∀ b ∈ sys_dispatch_state.bins, b.status = BinStatus.FULL) ∧
    (auto_predict_1 (fun _ => 1) sys_dispatch_state).alerts =
      sys_dispatch_state.alerts ++ [autoMsg 1] ∧
    (∀ b ∈ app_cex_state.bins, b.status = BinStatus.FULL) ∧
    (predict_fills_app (fun _ => 1) app_cex_state).alerts =
      app_cex_state.alerts ++ [appPredictMsg 1, appPredictMsg 2] := by
  have hstep1 : (autoPredictStep (fun _ => 1) sysBinFull).2 = some (autoMsg 1) := by
    simp only [autoPredictStep, sysBinFull]
    rw [predict_fill_at_100, if_pos (le_refl (100:ℚ))]
  have hstepA1 : (appPredictStep (fun _ => 1) appBinFull1).2 = some (appPredictMsg 1) := by
    simp only [appPredictStep, appBinFull1]
    rw [predict_fill_at_100, if_pos (le_refl (100:ℚ))]
  have hstepA2 : (appPredictStep (fun _ => 1) appBinFull2).2 = some (appPredictMsg 2) := by
    simp only [appPredictStep, appBinFull2]
    rw [predict_fill_at_100, if_pos (le_refl (100:ℚ))]
  refine ⟨by decide, ?_, by decide, ?_⟩
  · have h1 : (auto_predict_1 (fun _ => 1) sys_dispatch_state).alerts =
        sys_dispatch_state.alerts ++
          [sysBinFull].filterMap (fun b => (autoPredictStep (fun _ => 1) b).2) := rfl
    rw [h1, @List.filterMap_cons_some _ _ (fun b => (autoPredictStep (fun _ => 1) b).2)
        sysBinFull [] _ hstep1]
    rfl
  · have h1 : (predict_fills_app (fun _ => 1) app_cex_state).alerts =
        app_cex_state.alerts ++
          [appBinFull1, appBinFull2].filterMap
            (fun b => (appPredictStep (fun _ => 1) b).2) := rfl
    rw [h1, @List.filterMap_cons_some _ _ (fun b => (appPredictStep (fun _ => 1) b).2)
        appBinFull1 [appBinFull2] _ hstepA1,
        @List.filterMap_cons_some _ _ (fun b => (appPredictStep (fun _ => 1) b).2)
        appBinFull2 [] _ hstepA2]
    rfl

/-- Empty comparison record used in concrete log scenarios. -/
def comp0 : CompRec :=
  { bin := none, assigned_vehicle := none, assigned_distance := none,
    route_time := none, others := [] }

/-- Route payload with no optional keys. -/
def route0 : RouteData :=
  { bin_id := none, vehicle_id := none, distance := none, time := none,
    others := [] }

/-- Concrete state whose comparison log already holds 500 records. -/
def big_comp_state : SysState :=
  { sys_test_state with comparisons := List.replicate 500 comp0 }

/-- C4 (amended): appends that go through `record_comparison` — the path
used by app_1.py's `assign_nearest_full` — keep the comparison log at or
under 500 entries, appending plainly below the bound and evicting the
oldest (front) entry when an append would exceed it.  (The
`record_route_assignment` endpoint appends to the same log directly with no
eviction, so the log can exceed 500; see the counterexample.) -/
theorem C4_comparison_log_bound (stats : List CompRec) (rec1 : CompRec)
    (h : stats.length ≤ 500) :
    (record_comparison stats rec1).length ≤ 500 ∧
    (stats.length < 500 → record_comparison stats rec1 = stats ++ [rec1]) ∧
    (stats.length = 500 → record_comparison stats rec1 = stats.drop 1 ++ [rec1]) := by
  simp only [record_comparison]
  by_cases hlt : (stats ++ [rec1]).length > 500
  · rw [if_pos hlt]
    rw [List.length_append, List.length_singleton] at hlt
    refine ⟨?_, ?_, ?_⟩
    · rw [List.length_drop, List.length_append, List.length_singleton]
      omega
    · intro h2
      exfalso
      omega
    · intro _
      exact List.drop_append_of_le_length (by omega)
  · rw [if_neg hlt]
    rw [List.length_append, List.length_singleton] at hlt
    refine ⟨?_, fun _ => rfl, ?_⟩
    · rw [List.length_append, List.length_singleton]
      omega
    · intro h2
      exfalso
      omega

/-- Witness for C4: appending to an empty log. -/
theorem C4_comparison_log_bound_witness :
    (record_comparison [] comp0).length ≤ 500 ∧
    (List.length ([] : List CompRec) < 500 → record_comparison [] comp0 = [] ++ [comp0]) ∧
    (List.length ([] : List CompRec) = 500 → record_comparison [] comp0 = List.drop 1 [] ++ [comp0]) :=
  C4_comparison_log_bound [] comp0 (by decide)

/-- Counterexample to C4 as stated: `record_route_assignment` appends a
comparison record with no bound check, driving a 500-entry log to 501
entries. -/
theorem C4_counterexample :
    big_comp_state.comparisons.length = 500 ∧
    (record_route_assignment route0 big_comp_state).comparisons.length = 501 := by
  have h0 : big_comp_state.comparisons = List.replicate 500 comp0 := rfl
  constructor
  · rw [h0, List.length_replicate]
  · have h1 : (record_route_assignment route0 big_comp_state).comparisons =
        big_comp_state.comparisons ++
          [{ bin := none, assigned_vehicle := none, assigned_distance := none,
             route_time := none, others := [] }] := rfl
    rw [h1, List.length_append, List.length_singleton, h0, List.length_replicate]

/-- Busy vehicle en route to bin 1, used in the completion-path scenarios. -/
def sysVehBusy : Vehicle :=
  { id := 1, lat := 0, lng := 0, status := VStatus.BUSY, target_bin := some 1,
    completed := 0, total_distance := 0, moving := true,
    targetPath := some ((0, 0), (0, 0)), speed := 6 }

/-- Concrete app_1.py state in which vehicle 1 is assigned to FULL bin 1. -/
def sys_busy_state : SysState :=
  { bins := [sysBinFull], vehicles := [sysVehBusy], assignments := [],
    comparisons := [], alerts := [], completed := 0, distance := 0,
    avg_eta := 0, tripsOverTime := [] }

/-- C5 (amended): for any app_1.py state in which the vehicle and bin ids
resolve and ids are unique, the movement-loop arrival finalisation and the
external `complete_trip` command produce identical vehicle lists, bin lists
and completed counters — but not identical states: the movement path
appends the completion alert with an extra " (auto)" suffix, and only the
external path trims `trips_over_time` to its 200-entry bound, which the
movement path appends to unboundedly. -/
theorem C5_completion_paths (st : SysState) (vid bid : Nat) (v : Vehicle) (b : Bin)
    (hv : st.vehicles.find? (fun x => x.id == vid) = some v)
    (hb : st.bins.find? (fun x => x.id == bid) = some b)
    (hnv : (st.vehicles.map Vehicle.id).Nodup)
    (hnb : (st.bins.map Bin.id).Nodup) :
    (complete_trip_1 st vid bid).1.vehicles = (movement_finalize st vid bid).vehicles ∧
    (complete_trip_1 st vid bid).1.bins = (movement_finalize st vid bid).bins ∧
    (complete_trip_1 st vid bid).1.completed = (movement_finalize st vid bid).completed ∧
    (complete_trip_1 st vid bid).1.alerts = st.alerts ++ [completeMsg vid bid] ∧
    (movement_finalize st vid bid).alerts =
      st.alerts ++ [completeMsg vid bid ++ " (auto)"] ∧
    (movement_finalize st vid bid).tripsOverTime =
      st.tripsOverTime ++ [st.completed + 1] ∧
    (complete_trip_1 st vid bid).1.tripsOverTime =
      (if (st.tripsOverTime ++ [st.completed + 1]).length > 200
       then (st.tripsOverTime ++ [st.completed + 1]).drop 1
       else st.tripsOverTime ++ [st.completed + 1]) := by
  unfold complete_trip_1 movement_finalize
  rw [hv, hb]
  refine ⟨?_, ?_, rfl, rfl, rfl, rfl, rfl⟩
  · exact updateFirst_eq_map _ Vehicle.id vid st.vehicles hnv
  · exact updateFirst_eq_map _ Bin.id bid st.bins hnb

/-- Witness for C5 at the concrete assigned state. -/
theorem C5_completion_paths_witness :
    (complete_trip_1 sys_busy_state 1 1).1.vehicles =
      (movement_finalize sys_busy_state 1 1).vehicles ∧
    (complete_trip_1 sys_busy_state 1 1).1.bins =
      (movement_finalize sys_busy_state 1 1).bins ∧
    (complete_trip_1 sys_busy_state 1 1).1.completed =
      (movement_finalize sys_busy_state 1 1).completed ∧
    (complete_trip_1 sys_busy_state 1 1).1.alerts =
      sys_busy_state.alerts ++ [completeMsg 1 1] ∧
    (movement_finalize sys_busy_state 1 1).alerts =
      sys_busy_state.alerts ++ [completeMsg 1 1 ++ " (auto)"] ∧
    (movement_finalize sys_busy_state 1 1).tripsOverTime =
      sys_busy_state.tripsOverTime ++ [sys_busy_state.completed + 1] ∧
    (complete_trip_1 sys_busy_state 1 1).1.tripsOverTime =
      (if (sys_busy_state.tripsOverTime ++ [sys_busy_state.completed + 1]).length > 200
       then (sys_busy_state.tripsOverTime ++ [sys_busy_state.completed + 1]).drop 1
       else sys_busy_state.tripsOverTime ++ [sys_busy_state.completed + 1]) :=
  C5_completion_paths sys_busy_state 1 1 sysVehBusy sysBinFull rfl rfl
    (by decide) (by decide)

/-- Counterexample to C5 as stated: at the concrete assigned state the two
completion paths do not produce identical resulting state — the appended
alerts differ by the " (auto)" suffix. -/
theorem C5_counterexample :
    (complete_trip_1 sys_busy_state 1 1).1 ≠ movement_finalize sys_busy_state 1 1 ∧
    (complete_trip_1 sys_busy_state 1 1).1.alerts = [completeMsg 1 1] ∧
    (movement_finalize sys_busy_state 1 1).alerts = [completeMsg 1 1 ++ " (auto)"] := by
  refine ⟨?_, rfl, rfl⟩
  intro h
  have h2 := congrArg SysState.alerts h
  rw [show (complete_trip_1 sys_busy_state 1 1).1.alerts = [completeMsg 1 1] from rfl,
      show (movement_finalize sys_busy_state 1 1).alerts =
        [completeMsg 1 1 ++ " (auto)"] from rfl] at h2
  exact absurd h2 (by decide)

/-- The app_1.py `predict_fills` per-bin update preserves the FULL-iff-≥100
invariant when the growth draw is non-negative. -/
theorem predictStep_binOk (growth : Bin → ℚ) (b : Bin) (hg : 0 ≤ growth b)
    (hb : binOk b) : binOk (predictStep growth b).1 := by
  by_cases h : 100 ≤ predict_fill b.fill (growth b) ∧ ¬b.status = BinStatus.FULL
  · simp only [predictStep]
    rw [if_pos h]
    exact ⟨fun _ => h.1, fun _ => rfl⟩
  · simp only [predictStep]
    rw [if_neg h]
    by_cases hs : b.status = BinStatus.FULL
    · have hf : 100 ≤ b.fill := hb.mp hs
      have hnf : predict_fill b.fill (growth b) = 100 := by
        rw [predict_fill, min_eq_left (by linarith), round2_hundred]
      exact ⟨fun _ => by rw [hnf], fun _ => hs⟩
    · have hnot : ¬100 ≤ predict_fill b.fill (growth b) := fun hcon => h ⟨hcon, hs⟩
      exact ⟨fun hs2 => absurd hs2 hs, fun hf2 => absurd hf2 hnot⟩

/-- The `auto_loop` per-bin update preserves the invariant. -/
theorem autoPredictStep_binOk (growth : Bin → ℚ) (b : Bin) (hg : 0 ≤ growth b)
    (hb : binOk b) : binOk (autoPredictStep growth b).1 := by
  by_cases h : 100 ≤ predict_fill b.fill (growth b)
  · simp only [autoPredictStep]
    rw [if_pos h]
    exact ⟨fun _ => h, fun _ => rfl⟩
  · simp only [autoPredictStep]
    rw [if_neg h]
    by_cases hs : b.status = BinStatus.FULL
    · exfalso
      have hf : 100 ≤ b.fill := hb.mp hs
      have hnf : predict_fill b.fill (growth b) = 100 := by
        rw [predict_fill, min_eq_left (by linarith), round2_hundred]
      rw [hnf] at h
      exact h (le_refl _)
    · exact ⟨fun hs2 => absurd hs2 hs, fun hf2 => absurd hf2 h⟩

/-- The app.py `predict_fills` per-bin update preserves the invariant. -/
theorem appPredictStep_binOk (growth : Bin → ℚ) (b : Bin) (hg : 0 ≤ growth b)
    (hb : binOk b) : binOk (appPredictStep growth b).1 := by
  by_cases h : 100 ≤ predict_fill b.fill (growth b)
  · simp only [appPredictStep]
    rw [if_pos h]
    exact ⟨fun _ => h, fun _ => rfl⟩
  · simp only [appPredictStep]
    rw [if_neg h]
    by_cases hs : b.status = BinStatus.FULL
    · exfalso
      have hf : 100 ≤ b.fill := hb.mp hs
      have hnf : predict_fill b.fill (growth b) = 100 := by
        rw [predict_fill, min_eq_left (by linarith), round2_hundred]
      rw [hnf] at h
      exact h (le_refl _)
    · exact ⟨fun hs2 => absurd hs2 hs, fun hf2 => absurd hf2 h⟩

/-- A bin reset to fill 0 and status OK satisfies the invariant. -/
theorem binOk_reset (b : Bin) : binOk { b with fill := 0, status := BinStatus.OK } :=
  ⟨fun hs => BinStatus.noConfusion hs, fun hf => absurd hf (by norm_num)⟩

instance decidableBinOk (b : Bin) : Decidable (binOk b) :=
  inferInstanceAs (Decidable (b.status = BinStatus.FULL ↔ 100 ≤ b.fill))

instance decidableBinInv (l : List Bin) : Decidable (BinInv l) :=
  inferInstanceAs (Decidable (∀ b ∈ l, binOk b))

/-- C7: the invariant "a bin's status is FULL iff its fill is ≥ 100" holds
of the initial bin lists and is preserved by every predictor pass
(`predict_fills` of both variants and the `auto_loop` prediction phase, for
the non-negative growth draws the random sources produce), by the random
fill update, by dispatch (`assign_nearest_full` leaves bins untouched), and
by both trip-completion paths of both variants. -/
theorem C7_full_iff_ge_100 :
    BinInv bins_init ∧
    (∀ (growth : Bin → ℚ) (st : SysState), (∀ b, 0 ≤ growth b) → BinInv st.bins →
      BinInv (predict_fills_1 growth st).bins) ∧
    (∀ (growth : Bin → ℚ) (st : SysState), (∀ b, 0 ≤ growth b) → BinInv st.bins →
      BinInv (auto_predict_1 growth st).bins) ∧
    (∀ (growth : Bin → ℚ) (st : AppState), (∀ b, 0 ≤ growth b) → BinInv st.bins →
      BinInv (predict_fills_app growth st).bins) ∧
    (∀ (k : Nat) (m : ℚ) (st : SysState), 0 ≤ m → BinInv st.bins →
      BinInv (fill_random_1 k m st).bins) ∧
    (∀ (distFn : ℚ → ℚ → ℚ → ℚ → ℚ) (st : SysState),
      (assign_nearest_full_1 distFn st).1.bins = st.bins) ∧
    (∀ (st : SysState) (vid bid : Nat), BinInv st.bins →
      BinInv ((complete_trip_1 st vid bid).1).bins) ∧
    (∀ (st : SysState) (vid bid : Nat), BinInv st.bins →
      BinInv (movement_finalize st vid bid).bins) ∧
    (∀ (st : AppState) (vid bid : Nat), BinInv st.bins →
      BinInv ((complete_trip_app st vid bid).1).bins) := by
  refine ⟨by decide, ?_, ?_, ?_, ?_, ?_, ?_, ?_, ?_⟩
  · intro growth st hg hinv z hz
    rcases List.mem_map.mp hz with ⟨w, hw, rfl⟩
    exact predictStep_binOk growth w (hg w) (hinv w hw)
  · intro growth st hg hinv z hz
    rcases List.mem_map.mp hz with ⟨w, hw, rfl⟩
    exact autoPredictStep_binOk growth w (hg w) (hinv w hw)
  · intro growth st hg hinv z hz
    rcases List.mem_map.mp hz with ⟨w, hw, rfl⟩
    exact appPredictStep_binOk growth w (hg w) (hinv w hw)
  · intro k m st hm hinv
    cases hget : st.bins.get? k with
    | none => simp only [fill_random_1, hget]; exact hinv
    | some b =>
      have hbmem : b ∈ st.bins := List.get?_mem hget
      by_cases hif : 100 ≤ min 100 (b.fill + m)
      · simp only [fill_random_1, hget]
        rw [if_pos hif]
        intro z hz
        rcases List.mem_or_eq_of_mem_set hz with h1 | rfl
        · exact hinv z h1
        · exact ⟨fun _ => le_refl _, fun _ => rfl⟩
      · simp only [fill_random_1, hget]
        rw [if_neg hif]
        intro z hz
        rcases List.mem_or_eq_of_mem_set hz with h1 | rfl
        · exact hinv z h1
        · by_cases hs : b.status = BinStatus.FULL
          · exfalso
            have hf : 100 ≤ b.fill := (hinv b hbmem).mp hs
            exact hif (le_min (le_refl _) (by linarith))
          · exact ⟨fun hs2 => absurd hs2 hs, fun hf2 => absurd hf2 hif⟩
  · intro distFn st
    cases hcb : candidate_bins st.bins st.vehicles with
    | nil =>
      cases hiv : idle_vehicles st.vehicles with
      | nil => simp only [assign_nearest_full_1, hcb, hiv]
      | cons v0 vs => simp only [assign_nearest_full_1, hcb, hiv]
    | cons fb fbs =>
      cases hiv : idle_vehicles st.vehicles with
      | nil => simp only [assign_nearest_full_1, hcb, hiv]
      | cons v0 vs => simp only [assign_nearest_full_1, hcb, hiv]
  · intro st vid bid hinv
    cases hv : st.vehicles.find? (fun x => x.id == vid) with
    | none => simp only [complete_trip_1, hv]; exact hinv
    | some v =>
      cases hb2 : st.bins.find? (fun x => x.id == bid) with
      | none => simp only [complete_trip_1, hv, hb2]; exact hinv
      | some b =>
        simp only [complete_trip_1, hv, hb2]
        intro z hz
        rcases mem_updateFirst _ _ _ _ hz with h1 | ⟨w, hw, rfl⟩
        · exact hinv z h1
        · exact binOk_reset w
  · intro st vid bid hinv z hz
    rcases List.mem_map.mp hz with ⟨w, hw, rfl⟩
    by_cases h : (w.id == bid) = true
    · rw [if_pos h]
      exact binOk_reset w
    · rw [if_neg h]
      exact hinv w hw
  · intro st vid bid hinv z hz
    rcases List.mem_map.mp hz with ⟨w, hw, rfl⟩
    by_cases h : (w.id == bid) = true
    · rw [if_pos h]
      exact binOk_reset w
    · rw [if_neg h]
      exact hinv w hw

/-- Witness for C7: the predictor preserves the invariant at the initial
state, with growth 1 on every bin. -/
theorem C7_full_iff_ge_100_witness :
    BinInv (predict_fills_1 (fun _ => 1) sys_test_state).bins :=
  C7_full_iff_ge_100.2.1 (fun _ => 1) sys_test_state (fun _ => by norm_num) (by decide)
